import Mathlib

/-!
Shallow embedding of `src/main.py` of the BCSD-web-reports repository.

Python `str` values are modelled as `List Char` (abbreviated `Str`); Python's
whitespace set is modelled by its ASCII part, which is what the program's
inputs use.  Machinery that the program delegates to the Python standard
library or to external collaborators — `urllib.parse.urljoin`, the `csv`
module's dialect sniffing and `DictReader`, and the filesystem — is passed in
as an explicit function parameter, so every theorem below holds for any
behaviour of those collaborators.  All repository-owned logic (row filtering,
error-text normalization, Markdown rendering, delta computation, previous-run
selection, exit-code aggregation) is translated directly from the source.
-/

namespace BCSD

open scoped Lex

/-- Python `str`, modelled as its list of characters. -/
abbrev Str := List Char

/-- Coerce a Lean string literal to the model type. -/
def str (s : String) : Str := s.data

/-- ASCII part of Python's `str.strip()` / regex `\s` whitespace set. -/
def pyIsSpace (c : Char) : Bool :=
  c = ' ' || c = '\t' || c = '\n' || c = '\r' || c = '\x0b' || c = '\x0c'

/-- Python `s.strip()`: drop whitespace from both ends. -/
def pyStrip (l : Str) : Str :=
  ((l.dropWhile pyIsSpace).reverse.dropWhile pyIsSpace).reverse

/-- Python `s.lower()` (ASCII case mapping). -/
def pyLower (l : Str) : Str := l.map Char.toLower

/-- Python `s.split('\n')`. -/
def splitNl : Str → List Str
  | [] => [[]]
  | c :: t =>
    if c = '\n' then [] :: splitNl t
    else
      match splitNl t with
      | [] => [[c]]
      | s :: ss => (c :: s) :: ss

/-- Python `'\n'.join(lines)`. -/
def joinNl (lines : List Str) : Str := List.intercalate [ '\n' ] lines

/-- Python `ln.startswith('#')`. -/
def startsHash : Str → Bool
  | [] => false
  | c :: _ => c = '#'

/-- The `Issue` dataclass of `main.py`: one broken-link finding. -/
structure Issue where
  site : Str
  error_url : Str
  found_on : Str
  error : Str
deriving DecidableEq, Repr

/-- `Issue.key`: the full four-field uniqueness key. -/
def Issue.key (i : Issue) : Str × Str × Str × Str :=
  (i.site, i.error_url, i.found_on, i.error)

/-- The key type ordered lexicographically, as Python orders tuples of strings. -/
abbrev IssueKeyL := Str ×ₗ (Str ×ₗ (Str ×ₗ Str))

/-- The key of an issue, packaged in the lexicographic order. -/
def Issue.keyL (i : Issue) : IssueKeyL :=
  toLex (i.site, toLex (i.error_url, toLex (i.found_on, i.error)))

/-- The comparison used by `issues.sort(key=lambda i: (i.site, i.error_url,
i.found_on, i.error))`: lexicographic on the four-field key. -/
def keyLE (a b : Issue) : Prop := a.keyL ≤ b.keyL

instance : DecidableRel keyLE :=
  fun a b => inferInstanceAs (Decidable (a.keyL ≤ b.keyL))

instance : IsTotal Issue keyLE := ⟨fun a b => le_total a.keyL b.keyL⟩

instance : IsTrans Issue keyLE := ⟨fun _ _ _ hab hbc => le_trans hab hbc⟩

/-- The fixed list of error indicators of `_parse_csv_issues`. -/
def error_indicators : List Str :=
  [str "404", str "500", str "502", str "503", str "timeout", str "error",
   str "failed", str "invalid", str "exception"]

/-- `any(indicator.lower() in raw_result.lower() for indicator in error_indicators)`. -/
def hasErrorIndicator (raw_result : Str) : Prop :=
  ∃ ind ∈ error_indicators, pyLower ind <:+: pyLower raw_result

instance (raw_result : Str) : Decidable (hasErrorIndicator raw_result) :=
  inferInstanceAs (Decidable (∃ ind ∈ error_indicators, _ <:+: _))

/-- `"success" in raw_result.lower() or "ok" in raw_result.lower() or raw_result == "True"`. -/
def isSuccessResult (raw_result : Str) : Prop :=
  str "success" <:+: pyLower raw_result ∨ str "ok" <:+: pyLower raw_result ∨
    raw_result = str "True"

instance (raw_result : Str) : Decidable (isSuccessResult raw_result) :=
  inferInstanceAs (Decidable (_ ∨ _ ∨ _))

/-- The match of the anchored regex `^\s*(in)?valid\s*:\s*` (IGNORECASE):
`some rest` holds the text after the matched prefix, `none` means no match. -/
def match_valid_tag (l : Str) : Option Str :=
  let l1 := l.dropWhile pyIsSpace
  let l2 : Option Str :=
    if pyLower (l1.take 7) = str "invalid" then some (l1.drop 7)
    else if pyLower (l1.take 5) = str "valid" then some (l1.drop 5)
    else none
  match l2 with
  | none => none
  | some m =>
    match m.dropWhile pyIsSpace with
    | ':' :: rest => some (rest.dropWhile pyIsSpace)
    | _ => none

/-- `re.sub(r"^\s*(in)?valid\s*:\s*", "", error, flags=re.IGNORECASE)`. -/
def strip_valid (l : Str) : Str := (match_valid_tag l).getD l

/-- `_normalize_error_url`: join against the parent page when given, else the
site root.  `urljoin` is the Python standard-library function, passed in. -/
def normalize_error_url (urljoin : Str → Str → Str)
    (site found_on error_url : Str) : Str :=
  urljoin (if found_on = [] then site else found_on) error_url

/-- The CSV rows produced by `csv.DictReader`: each row maps header names to
cell text, modelled as an association list. -/
abbrev Row := List (Str × Str)

/-- The `pick` helper of `_parse_csv_issues`: first name present in the row
with truthy (non-empty) value, stripped; `""` when none matches. -/
def pick (row : Row) : List Str → Str
  | [] => []
  | n :: ns =>
    match row.lookup n with
    | some v => if v = [] then pick row ns else pyStrip v
    | none => pick row ns

/-- The URL of a row: `pick(row, "urlname", "url", "realurl")`. -/
def pickUrl (row : Row) : Str := pick row [str "urlname", str "url", str "realurl"]

/-- The parent page of a row: `pick(row, "parentname", "parenturl", "parent")`. -/
def pickParent (row : Row) : Str := pick row [str "parentname", str "parenturl", str "parent"]

/-- The result text of a row: `pick(row, "result", "valid", "warning", "info")`. -/
def pickResult (row : Row) : Str := pick row [str "result", str "valid", str "warning", str "info"]

/-- The per-row body of the loop of `_parse_csv_issues`: `none` when the row
is skipped by a `continue`, `some issue` when an `Issue` is appended. -/
def processRow (urljoin : Str → Str → Str) (site : Str) (row : Row) : Option Issue :=
  if pickUrl row = [] ∧ pickResult row = [] then none
  else if pickResult row ≠ [] ∧
      (str "403" <:+: pickResult row ∨ str "Forbidden" <:+: pickResult row) then
    none
  else if pickResult row ≠ [] ∧ ¬ hasErrorIndicator (pickResult row) ∧
      isSuccessResult (pickResult row) then
    none
  else
    some { site := site
           error_url := normalize_error_url urljoin site (pickParent row) (pickUrl row)
           found_on := if pickParent row = [] then site else pickParent row
           error := if strip_valid (pickResult row) = [] then str "Unknown error"
                    else strip_valid (pickResult row) }

/-- The loop and final sort of `_parse_csv_issues`, over the rows delivered by
the CSV reader. -/
def parse_csv_rows (urljoin : Str → Str → Str) (site : Str) (rows : List Row) : List Issue :=
  List.insertionSort keyLE (rows.filterMap (processRow urljoin site))

/-- `csv_data` of `_parse_csv_issues`: the input with blank and `#`-comment
lines removed, re-joined with newlines. -/
def csv_data_of (text : Str) : Str :=
  joinNl ((splitNl text).filter (fun ln => decide (pyStrip ln ≠ []) && ! startsHash ln))

/-- `_parse_csv_issues`.  `reader` stands for `csv.DictReader` together with
the sniffed dialect: it turns the comment-stripped CSV data into rows. -/
def parse_csv_issues (urljoin : Str → Str → Str) (reader : Str → List Row)
    (site : Str) (text : Str) : List Issue :=
  if pyStrip text = [] then []
  else parse_csv_rows urljoin site (reader (csv_data_of text))

/-- `_md_escape`: replace every `|` by `\|`, then strip. -/
def md_escape_core (l : Str) : Str :=
  l.flatMap (fun c => if c = '|' then ['\\', '|'] else [c])

/-- `_md_escape(text) = text.replace("|", r"\|").strip()`. -/
def md_escape (l : Str) : Str := pyStrip (md_escape_core l)

/-- `_md_link`: `[escaped u](u)` for the stripped URL `u = url.strip()`, and
the empty string for an empty `u`.  Note the link target is the raw `u`, not
the escaped text. -/
def md_link (url : Str) : Str :=
  if pyStrip url = [] then []
  else str "[" ++ md_escape (pyStrip url) ++ str "](" ++ pyStrip url ++ str ")"

/-- One table row emitted by `_write_site_report`:
`f"| {_md_link(i.error_url)} | {_md_link(i.found_on)} | {_md_escape(i.error)} |"`. -/
def site_report_row (i : Issue) : Str :=
  str "| " ++ md_link i.error_url ++ str " | " ++ md_link i.found_on ++
    str " | " ++ md_escape i.error ++ str " |"

/-- Number of column-separator pipes of a Markdown row: pipes not immediately
preceded by a backslash.  `prev` is the character before the list's head. -/
def unescaped_pipes (prev : Char) : Str → Nat
  | [] => 0
  | c :: t => (if c = '|' ∧ prev ≠ '\\' then 1 else 0) + unescaped_pipes c t

/-- Separator count of a whole emitted line (no preceding character: the
sentinel `' '` is not a backslash). -/
def row_pipes (l : Str) : Nat := unescaped_pipes ' ' l

/-- The plain (unordered) key type used by the summary's set difference. -/
abbrev IssueKey := Str × Str × Str × Str

/-- `{i.key() for i in issues}` of `_write_summary`. -/
def key_set (issues : List Issue) : Finset IssueKey :=
  (issues.map Issue.key).toFinset

/-- `added = cur_set - prev_set` of `_write_summary`. -/
def summary_added (all_issues prev_issues : List Issue) : Finset IssueKey :=
  key_set all_issues \ key_set prev_issues

/-- `removed = prev_set - cur_set` of `_write_summary`. -/
def summary_removed (all_issues prev_issues : List Issue) : Finset IssueKey :=
  key_set prev_issues \ key_set all_issues

/-- `run_dirs` of `_load_previous_issues`: the run directory names other than
the current run's, sorted (Python `sorted`, ascending lexicographic). -/
def run_dirs_sorted (names : List Str) (current : Str) : List Str :=
  List.insertionSort (fun a b => a ≤ b) (names.filter (fun n => decide (n ≠ current)))

/-- The previous run chosen by `_load_previous_issues`: `run_dirs[-1]`. -/
def selected_prev (names : List Str) (current : Str) : Option Str :=
  (run_dirs_sorted names current).getLast?

/-- `_load_previous_issues`.  `names` are the directory names found in the
reports directory, `current` the current run's name, and `issues_json prev`
the parsed `issues` list of `prev/issues.json` (`none` when that file does
not exist). -/
def load_previous_issues (names : List Str) (current : Str)
    (issues_json : Str → Option (List Issue)) : List Issue :=
  match selected_prev names current with
  | none => []
  | some prev =>
    match issues_json prev with
    | none => []
    | some issues => issues

/-- How one `_run_linkchecker` invocation ended: the `Popen` call failed, or
the process finished (possibly after the overall-timeout kill) with
`proc.returncode` (`none` models Python `None`). -/
inductive LinkcheckerOutcome where
  | launchFailure
  | finished (timedOut : Bool) (returncode : Option Int)
deriving DecidableEq, Repr

/-- The exit code `_run_linkchecker` reports for a site: `2` on launch
failure; otherwise `returncode`, defaulted to `2`/`1`, and normalized to `2`
whenever the overall timeout fired. -/
def run_linkchecker_rc : LinkcheckerOutcome → Int
  | .launchFailure => 2
  | .finished timedOut returncode =>
    let rc := match returncode with
      | some c => c
      | none => if timedOut then 2 else 1
    if timedOut then 2 else rc

/-- The `tool_errors` accumulator of `main`: one entry per site whose
LinkChecker exit code was `2`. -/
def tool_error_outcomes (outcomes : List LinkcheckerOutcome) : List LinkcheckerOutcome :=
  outcomes.filter (fun o => run_linkchecker_rc o == 2)

/-- The return value of a completed `main` run, given how the LinkChecker
invocation ended on each site: `2` if `tool_errors` is non-empty, else `0`. -/
def main_exit_code (outcomes : List LinkcheckerOutcome) : Int :=
  if tool_error_outcomes outcomes = [] then 0 else 2

/-! ### Helper lemmas -/

/-- Only the empty list is an infix of the empty list. -/
lemma eq_nil_of_infix_nil {l : Str} (h : l <:+: ([] : Str)) : l = [] :=
  List.sublist_nil.mp h.sublist

/-- Any retained row yields exactly the record built in the `else` branch of
the loop body. -/
lemma processRow_some {urljoin : Str → Str → Str} {site : Str} {row : Row} {issue : Issue}
    (h : processRow urljoin site row = some issue) :
    issue =
      { site := site
        error_url := normalize_error_url urljoin site (pickParent row) (pickUrl row)
        found_on := if pickParent row = [] then site else pickParent row
        error := if strip_valid (pickResult row) = [] then str "Unknown error"
                 else strip_valid (pickResult row) } := by
  unfold processRow at h
  split_ifs at h ⊢ <;> exact (Option.some.inj h).symm

/-- A result containing one of the error indicators is non-empty. -/
lemma ne_nil_of_hasErrorIndicator {r : Str} (h : hasErrorIndicator r) : r ≠ [] := by
  rintro rfl
  obtain ⟨ind, hind, hinf⟩ := h
  have h0 : pyLower ind = [] := by
    have he : pyLower ([] : Str) = [] := rfl
    rw [he] at hinf
    exact eq_nil_of_infix_nil hinf
  fin_cases hind <;> exact absurd h0 (by decide)

/-- A success/ok/True result is non-empty. -/
lemma ne_nil_of_isSuccessResult {r : Str} (h : isSuccessResult r) : r ≠ [] := by
  rintro rfl
  have he : pyLower ([] : Str) = [] := rfl
  rcases h with h | h | h
  · rw [he] at h
    exact absurd (eq_nil_of_infix_nil h) (by decide)
  · rw [he] at h
    exact absurd (eq_nil_of_infix_nil h) (by decide)
  · exact absurd h (by decide)

/-! ### C1: summary delta as set difference -/

/-- C1: for any two snapshots, a key is in the summary's `added` set exactly
when it is a current-run key and not a previous-run key, and in `removed`
exactly when it is a previous-run key and not a current-run key; key sets are
exactly the issue keys of the snapshots, and recomputing the delta from the
same two snapshots yields the same sets. -/
theorem claim_C1 (cur prev : List Issue) (k : IssueKey) :
    (k ∈ summary_added cur prev ↔ k ∈ key_set cur ∧ k ∉ key_set prev) ∧
    (k ∈ summary_removed cur prev ↔ k ∈ key_set prev ∧ k ∉ key_set cur) ∧
    (k ∈ key_set cur ↔ ∃ i ∈ cur, Issue.key i = k) ∧
    (summary_added cur prev = summary_added cur prev ∧
      summary_removed cur prev = summary_removed cur prev) := by
  refine ⟨?_, ?_, ?_, rfl, rfl⟩
  · simp [summary_added, Finset.mem_sdiff]
  · simp [summary_removed, Finset.mem_sdiff]
  · simp [key_set, List.mem_toFinset, List.mem_map]

/-- C1 witness: the delta membership characterization at a concrete pair of
snapshots. -/
theorem claim_C1_witness :
    (str "s", str "u", str "f", str "e") ∈
        summary_added [Issue.mk (str "s") (str "u") (str "f") (str "e")] [] ↔
      (str "s", str "u", str "f", str "e") ∈
          key_set [Issue.mk (str "s") (str "u") (str "f") (str "e")] ∧
        (str "s", str "u", str "f", str "e") ∉ key_set [] :=
  (claim_C1 [Issue.mk (str "s") (str "u") (str "f") (str "e")] []
    (str "s", str "u", str "f", str "e")).1

/-! ### C2: 403 / Forbidden rows are excluded -/

/-- C2: a row whose picked result text contains `"403"` or `"Forbidden"` as a
substring is skipped: the loop body yields no issue for it, and parsing a row
list starting with it yields exactly the issues of the remaining rows. -/
theorem claim_C2 (urljoin : Str → Str → Str) (site : Str) (row : Row) (rows : List Row)
    (h : str "403" <:+: pickResult row ∨ str "Forbidden" <:+: pickResult row) :
    processRow urljoin site row = none ∧
    parse_csv_rows urljoin site (row :: rows) = parse_csv_rows urljoin site rows := by
  have hne : pickResult row ≠ [] := by
    rintro he
    rw [he] at h
    rcases h with h | h
    · exact absurd (eq_nil_of_infix_nil h) (by decide)
    · exact absurd (eq_nil_of_infix_nil h) (by decide)
  have hnone : processRow urljoin site row = none := by
    unfold processRow
    rw [if_neg (fun hc => hne hc.2), if_pos ⟨hne, h⟩]
  refine ⟨hnone, ?_⟩
  unfold parse_csv_rows
  rw [List.filterMap_cons, hnone]

/-- C2 witness: a concrete Forbidden row is dropped from the parse. -/
theorem claim_C2_witness :
    (str "403" <:+: pickResult [(str "urlname", str "http://s/p"), (str "result", str "403 Forbidden")] ∨
      str "Forbidden" <:+: pickResult [(str "urlname", str "http://s/p"), (str "result", str "403 Forbidden")]) ∧
    processRow (fun _ u => u) (str "http://s/")
      [(str "urlname", str "http://s/p"), (str "result", str "403 Forbidden")] = none :=
  ⟨by decide,
   (claim_C2 (fun _ u => u) (str "http://s/")
      [(str "urlname", str "http://s/p"), (str "result", str "403 Forbidden")] []
      (by decide)).1⟩

/-! ### C3: success rows excluded, indicator rows retained -/

/-- C3 counterexample: the claim says every row whose result contains an
error indicator is retained, but a result such as `"404 Forbidden"` contains
the indicator `"404"` and is nevertheless skipped by the earlier
403/Forbidden filter. -/
theorem claim_C3_counterexample :
    hasErrorIndicator (str "404 Forbidden") ∧
    processRow (fun _ u => u) (str "http://s/")
      [(str "urlname", str "http://s/p"), (str "result", str "404 Forbidden")] = none := by
  constructor
  · decide
  · decide

/-- C3 (amended): a row whose result indicates success/ok/True and contains
no error indicator is always skipped; and a row whose result contains an
error indicator **and does not contain `"403"` or `"Forbidden"`** is retained
as an issue. -/
theorem claim_C3 (urljoin : Str → Str → Str) (site : Str) (row : Row) :
    (¬ hasErrorIndicator (pickResult row) ∧ isSuccessResult (pickResult row) →
      processRow urljoin site row = none) ∧
    (hasErrorIndicator (pickResult row) ∧ ¬ (str "403" <:+: pickResult row) ∧
        ¬ (str "Forbidden" <:+: pickResult row) →
      ∃ issue, processRow urljoin site row = some issue) := by
  constructor
  · rintro ⟨hni, hs⟩
    have hne := ne_nil_of_isSuccessResult hs
    unfold processRow
    by_cases h1 : pickUrl row = [] ∧ pickResult row = []
    · rw [if_pos h1]
    · rw [if_neg h1]
      by_cases h2 : pickResult row ≠ [] ∧
          (str "403" <:+: pickResult row ∨ str "Forbidden" <:+: pickResult row)
      · rw [if_pos h2]
      · rw [if_neg h2, if_pos ⟨hne, hni, hs⟩]
  · rintro ⟨hi, h403, hforb⟩
    have hne := ne_nil_of_hasErrorIndicator hi
    unfold processRow
    rw [if_neg (fun hc => hne hc.2),
        if_neg (fun hc => by rcases hc.2 with h | h; exact h403 h; exact hforb h),
        if_neg (fun hc => hc.2.1 hi)]
    exact ⟨_, rfl⟩

/-- C3 witness: a concrete `500` row is retained. -/
theorem claim_C3_witness :
    ∃ issue, processRow (fun _ u => u) (str "http://s/")
      [(str "urlname", str "http://s/p"), (str "result", str "500 Server Error")] = some issue :=
  (claim_C3 (fun _ u => u) (str "http://s/")
    [(str "urlname", str "http://s/p"), (str "result", str "500 Server Error")]).2
    (by decide)

/-! ### C5: resolution against the site root when no parent is given -/

/-- C5: for a retained row with empty parent field, the issue's error URL is
the url-join of the site URL with the row's URL, and its found-on page is the
site URL itself. -/
theorem claim_C5 (urljoin : Str → Str → Str) (site : Str) (row : Row) (issue : Issue)
    (hp : pickParent row = [])
    (h : processRow urljoin site row = some issue) :
    issue.error_url = urljoin site (pickUrl row) ∧ issue.found_on = site := by
  rw [processRow_some h]
  simp [normalize_error_url, hp]

/-- C5 witness: a concrete parentless row resolves against the site root. -/
theorem claim_C5_witness :
    pickParent [(str "urlname", str "about/contact.html"), (str "result", str "404 Not Found")] = [] ∧
    (Issue.mk (str "http://s/") ((fun b u => b ++ u) (str "http://s/") (str "about/contact.html"))
        (str "http://s/") (str "404 Not Found")).error_url =
      (fun b u => b ++ u) (str "http://s/")
        (pickUrl [(str "urlname", str "about/contact.html"), (str "result", str "404 Not Found")]) ∧
    (Issue.mk (str "http://s/") ((fun b u => b ++ u) (str "http://s/") (str "about/contact.html"))
        (str "http://s/") (str "404 Not Found")).found_on = str "http://s/" := by
  refine ⟨by decide, ?_⟩
  exact claim_C5 (fun b u => b ++ u) (str "http://s/")
    [(str "urlname", str "about/contact.html"), (str "result", str "404 Not Found")]
    (Issue.mk (str "http://s/") ((fun b u => b ++ u) (str "http://s/") (str "about/contact.html"))
      (str "http://s/") (str "404 Not Found"))
    (by decide) (by decide)

/-! ### C6: process exit code aggregation -/

/-- C6: a completed run returns only `0` or `2`: `2` exactly when some site's
LinkChecker invocation reported exit code `2` (launch failures and overall
timeouts are normalized to `2`), and `0` exactly when none did. -/
theorem claim_C6 (outcomes : List LinkcheckerOutcome) :
    (main_exit_code outcomes = 0 ∨ main_exit_code outcomes = 2) ∧
    (main_exit_code outcomes = 2 ↔ ∃ o ∈ outcomes, run_linkchecker_rc o = 2) ∧
    (main_exit_code outcomes = 0 ↔ ∀ o ∈ outcomes, run_linkchecker_rc o ≠ 2) ∧
    run_linkchecker_rc .launchFailure = 2 ∧
    (∀ rc, run_linkchecker_rc (.finished true rc) = 2) := by
  have key : (outcomes.filter (fun o => run_linkchecker_rc o == 2) = []) ↔
      ∀ o ∈ outcomes, run_linkchecker_rc o ≠ 2 := by
    simp [List.filter_eq_nil_iff]
  unfold main_exit_code tool_error_outcomes
  refine ⟨?_, ?_, ?_, rfl, fun rc => rfl⟩
  · split_ifs <;> simp
  · split_ifs with h
    · refine iff_of_false (by decide) ?_
      rintro ⟨o, ho, h2⟩
      exact key.mp h o ho h2
    · refine iff_of_true rfl ?_
      by_contra hc
      push_neg at hc
      exact h (key.mpr hc)
  · split_ifs with h
    · exact iff_of_true rfl (key.mp h)
    · exact iff_of_false (by decide) (fun hall => h (key.mpr hall))

/-- C6 witness: a clean run exits 0; a launch failure on one site makes the
whole run exit 2. -/
theorem claim_C6_witness :
    main_exit_code [LinkcheckerOutcome.finished false (some 1)] = 0 ∧
    main_exit_code [LinkcheckerOutcome.finished false (some 0),
      LinkcheckerOutcome.launchFailure] = 2 :=
  ⟨(claim_C6 [LinkcheckerOutcome.finished false (some 1)]).2.2.1.mpr (by decide),
   (claim_C6 [LinkcheckerOutcome.finished false (some 0),
      LinkcheckerOutcome.launchFailure]).2.1.mpr
     ⟨LinkcheckerOutcome.launchFailure, by decide, rfl⟩⟩

/-! ### C8: stripping the `(in)valid:` prefix from result text -/

/-- C8: a retained row's stored error text is the result text with the
anchored case-insensitive `(in)valid:` marker (with optional surrounding
whitespace) stripped, defaulted to `"Unknown error"` when that leaves
nothing; text the regex does not match is unchanged; and the stripping does
remove such a single leading marker, whatever follows it. -/
theorem claim_C8 (urljoin : Str → Str → Str) (site : Str) (row : Row) (issue : Issue)
    (h : processRow urljoin site row = some issue) :
    issue.error = (if strip_valid (pickResult row) = [] then str "Unknown error"
                   else strip_valid (pickResult row)) ∧
    (∀ s : Str, match_valid_tag s = none → strip_valid s = s) ∧
    (∀ rest : Str, rest.dropWhile pyIsSpace = rest →
      strip_valid (str " inValid : " ++ rest) = rest ∧
      strip_valid (str "valid:" ++ rest) = rest) := by
  refine ⟨?_, ?_, ?_⟩
  · rw [processRow_some h]
  · intro s hs
    simp [strip_valid, hs]
  · intro rest hrest
    constructor
    · have hm : match_valid_tag (str " inValid : " ++ rest) =
          some (rest.dropWhile pyIsSpace) := rfl
      simp [strip_valid, hm, hrest]
    · have hm : match_valid_tag (str "valid:" ++ rest) =
          some (rest.dropWhile pyIsSpace) := rfl
      simp [strip_valid, hm, hrest]

/-- C8 witness: a concrete `invalid:`-prefixed result is stripped. -/
theorem claim_C8_witness :
    processRow (fun _ u => u) (str "http://s/")
        [(str "urlname", str "http://s/p"), (str "result", str "invalid: 404 Not Found")] =
      some (Issue.mk (str "http://s/") (str "http://s/p") (str "http://s/") (str "404 Not Found")) ∧
    (Issue.mk (str "http://s/") (str "http://s/p") (str "http://s/") (str "404 Not Found")).error =
      (if strip_valid (pickResult
            [(str "urlname", str "http://s/p"), (str "result", str "invalid: 404 Not Found")]) = []
        then str "Unknown error"
        else strip_valid (pickResult
            [(str "urlname", str "http://s/p"), (str "result", str "invalid: 404 Not Found")])) :=
  ⟨by decide,
   (claim_C8 (fun _ u => u) (str "http://s/")
      [(str "urlname", str "http://s/p"), (str "result", str "invalid: 404 Not Found")]
      (Issue.mk (str "http://s/") (str "http://s/p") (str "http://s/") (str "404 Not Found"))
      (by decide)).1⟩

/-! ### C10: defaults make found_on and error non-empty -/

/-- C10: every issue produced from a row of a site with a non-empty URL (the
program only ever parses for the configured non-empty site URLs) has a
non-empty found-on page and non-empty error text, with the stated defaults:
the site URL when the parent field is empty, `"Unknown error"` when the
stripped result text is empty. -/
theorem claim_C10 (urljoin : Str → Str → Str) (site : Str) (row : Row) (issue : Issue)
    (hsite : site ≠ [])
    (h : processRow urljoin site row = some issue) :
    issue.found_on ≠ [] ∧ issue.error ≠ [] ∧
    (pickParent row = [] → issue.found_on = site) ∧
    (strip_valid (pickResult row) = [] → issue.error = str "Unknown error") := by
  rw [processRow_some h]
  refine ⟨?_, ?_, ?_, ?_⟩
  · by_cases hp : pickParent row = [] <;> simp [hp, hsite]
  · by_cases hsv : strip_valid (pickResult row) = [] <;> simp [hsv]
    exact by decide
  · intro hp
    simp [hp]
  · intro hsv
    simp [hsv]

/-- C10 witness: a concrete row with no parent and empty result text. -/
theorem claim_C10_witness :
    (str "http://s/" : Str) ≠ [] ∧
    processRow (fun _ u => u) (str "http://s/") [(str "urlname", str "deep/page.html")] =
      some (Issue.mk (str "http://s/") (str "deep/page.html") (str "http://s/")
        (str "Unknown error")) ∧
    (Issue.mk (str "http://s/") (str "deep/page.html") (str "http://s/")
        (str "Unknown error")).found_on ≠ [] ∧
    (Issue.mk (str "http://s/") (str "deep/page.html") (str "http://s/")
        (str "Unknown error")).error ≠ [] :=
  ⟨by decide, by decide,
   (claim_C10 (fun _ u => u) (str "http://s/") [(str "urlname", str "deep/page.html")]
      (Issue.mk (str "http://s/") (str "deep/page.html") (str "http://s/") (str "Unknown error"))
      (by decide) (by decide)).1,
   (claim_C10 (fun _ u => u) (str "http://s/") [(str "urlname", str "deep/page.html")]
      (Issue.mk (str "http://s/") (str "deep/page.html") (str "http://s/") (str "Unknown error"))
      (by decide) (by decide)).2.1⟩

/-! ### C7: previous-run selection -/

/-- In a `≤`-sorted list, every member is at most the last element. -/
lemma le_getLast_of_sorted :
    ∀ (l : List Str), List.Sorted (fun a b : Str => a ≤ b) l →
      ∀ m, l.getLast? = some m → ∀ x ∈ l, x ≤ m
  | [] => by
      intro _ m hm
      simp at hm
  | [a] => by
      intro _ m hm x hx
      simp at hm hx
      rw [hx, ← hm]
  | a :: b :: t => by
      intro hs m hm x hx
      rw [List.getLast?_cons_cons] at hm
      rcases List.mem_cons.mp hx with rfl | hx'
      · exact List.rel_of_sorted_cons hs m (List.mem_of_mem_getLast? hm)
      · exact le_getLast_of_sorted (b :: t) hs.of_cons m hm x hx'

/-- C7: when `_load_previous_issues` selects a previous run, it is a run
directory name distinct from the current run's and lexicographically greatest
among those; when no other run directory exists, or the selected run has no
`issues.json`, the previous-issue list is empty. -/
theorem claim_C7 (names : List Str) (current : Str) (issues_json : Str → Option (List Issue)) :
    (∀ prev, selected_prev names current = some prev →
      prev ∈ names ∧ prev ≠ current ∧ ∀ d ∈ names, d ≠ current → d ≤ prev) ∧
    (names.filter (fun n => decide (n ≠ current)) = [] →
      load_previous_issues names current issues_json = []) ∧
    (∀ prev, selected_prev names current = some prev → issues_json prev = none →
      load_previous_issues names current issues_json = []) := by
  have hperm := List.perm_insertionSort (fun a b : Str => a ≤ b)
    (names.filter (fun n => decide (n ≠ current)))
  have hsort := List.sorted_insertionSort (fun a b : Str => a ≤ b)
    (names.filter (fun n => decide (n ≠ current)))
  refine ⟨?_, ?_, ?_⟩
  · intro prev hprev
    unfold selected_prev at hprev
    have hmem := List.mem_of_mem_getLast? hprev
    have hmem' : prev ∈ names.filter (fun n => decide (n ≠ current)) := hperm.subset hmem
    obtain ⟨him, hic⟩ := List.mem_filter.mp hmem'
    refine ⟨him, of_decide_eq_true hic, ?_⟩
    intro d hd hdc
    have hdmem : d ∈ run_dirs_sorted names current :=
      hperm.mem_iff.mpr (List.mem_filter.mpr ⟨hd, decide_eq_true hdc⟩)
    exact le_getLast_of_sorted _ hsort prev hprev d hdmem
  · intro hf
    unfold load_previous_issues selected_prev run_dirs_sorted
    rw [hf]
    rfl
  · intro prev h1 h2
    unfold load_previous_issues
    rw [h1]
    simp [h2]

/-- C7 witness: three concrete run directories; the lexicographically
greatest other than the current one is selected, and a missing `issues.json`
yields the empty list. -/
theorem claim_C7_witness :
    selected_prev
        [str "2025-02-01_000000", str "2024-12-31_235959", str "2025-01-15_120000"]
        (str "2025-02-01_000000") = some (str "2025-01-15_120000") ∧
    load_previous_issues
        [str "2025-02-01_000000", str "2024-12-31_235959", str "2025-01-15_120000"]
        (str "2025-02-01_000000") (fun _ => none) = [] :=
  ⟨by decide,
   (claim_C7 [str "2025-02-01_000000", str "2024-12-31_235959", str "2025-01-15_120000"]
      (str "2025-02-01_000000") (fun _ => none)).2.2
      (str "2025-01-15_120000") (by decide) rfl⟩

/-! ### C9: parse output is sorted, tagged with the site, empty on blank input -/

/-- C9: for any site and CSV text (and any behaviour of the standard-library
CSV reader and of `urljoin`), the parse result is sorted ascending in the
lexicographic order of the key tuple, every returned issue carries the given
site, and empty or whitespace-only input yields the empty list. -/
theorem claim_C9 (urljoin : Str → Str → Str) (reader : Str → List Row) (site text : Str) :
    (pyStrip text = [] → parse_csv_issues urljoin reader site text = []) ∧
    List.Sorted keyLE (parse_csv_issues urljoin reader site text) ∧
    (∀ i ∈ parse_csv_issues urljoin reader site text, i.site = site) := by
  refine ⟨?_, ?_, ?_⟩
  · intro he
    simp [parse_csv_issues, he]
  · unfold parse_csv_issues
    split_ifs
    · exact List.sorted_nil
    · exact List.sorted_insertionSort keyLE _
  · intro i hi
    unfold parse_csv_issues at hi
    split_ifs at hi
    · cases hi
    · unfold parse_csv_rows at hi
      have hmem := (List.perm_insertionSort keyLE _).subset hi
      obtain ⟨row, _, hpr⟩ := List.mem_filterMap.mp hmem
      rw [processRow_some hpr]

/-- C9 witness: whitespace-only input parses to the (vacuously sorted) empty
list. -/
theorem claim_C9_witness :
    pyStrip (str " \n ") = [] ∧
    parse_csv_issues (fun _ u => u) (fun _ => []) (str "http://s/") (str " \n ") = [] ∧
    List.Sorted keyLE (parse_csv_issues (fun _ u => u) (fun _ => []) (str "http://s/") (str " \n ")) :=
  ⟨by decide,
   (claim_C9 (fun _ u => u) (fun _ => []) (str "http://s/") (str " \n ")).1 (by decide),
   (claim_C9 (fun _ u => u) (fun _ => []) (str "http://s/") (str " \n ")).2.1⟩

/-! ### C4: pipe escaping in Markdown table rows -/

/-- The character before the tail, seen from initial previous character `p`. -/
def lastP (p : Char) : Str → Char
  | [] => p
  | c :: t => lastP c t

/-- Unescaped-pipe counting splits over concatenation. -/
lemma unescaped_pipes_append (p : Char) (a b : Str) :
    unescaped_pipes p (a ++ b) = unescaped_pipes p a + unescaped_pipes (lastP p a) b := by
  induction a generalizing p with
  | nil => simp [unescaped_pipes, lastP]
  | cons c t ih =>
    simp only [List.cons_append, unescaped_pipes, lastP]
    have hrec := ih c
    simp only [List.append_eq] at hrec ⊢
    omega

/-- A pipe-free string has no unescaped pipes. -/
lemma no_pipe_unescaped (p : Char) {l : Str} (h : '|' ∉ l) : unescaped_pipes p l = 0 := by
  induction l generalizing p with
  | nil => rfl
  | cons c t ih =>
    have hc : ¬ c = '|' := fun he => h (he ▸ List.mem_cons_self c t)
    simp [unescaped_pipes, hc, ih c (fun hm => h (List.mem_cons_of_mem c hm))]

/-- The output of the pipe-replacement has no unescaped pipes, whatever
precedes it. -/
lemma escape_core_unescaped (p : Char) (l : Str) :
    unescaped_pipes p (md_escape_core l) = 0 := by
  induction l generalizing p with
  | nil => rfl
  | cons c t ih =>
    simp only [md_escape_core, List.flatMap_cons] at *
    by_cases hc : c = '|'
    · subst hc
      simp [unescaped_pipes, ih]
    · simp [unescaped_pipes, hc, ih]

/-- No preceding character yields unescaped pipes in `l`. -/
def ZeroPipes (l : Str) : Prop := ∀ p, unescaped_pipes p l = 0

/-- The count only depends on whether the preceding character is a backslash. -/
lemma unescaped_pipes_prev_eq {p q : Char} (hp : p ≠ '\\') (hq : q ≠ '\\') (l : Str) :
    unescaped_pipes p l = unescaped_pipes q l := by
  cases l with
  | nil => rfl
  | cons c t => simp [unescaped_pipes, hp, hq]

/-- A preceding backslash can only lower the count. -/
lemma unescaped_pipes_backslash_le (p : Char) (l : Str) :
    unescaped_pipes '\\' l ≤ unescaped_pipes p l := by
  cases l with
  | nil => exact le_refl _
  | cons c t =>
    simp only [unescaped_pipes]
    have h0 : ¬ (c = '|' ∧ ('\\' : Char) ≠ '\\') := fun hc => hc.2 rfl
    rw [if_neg h0]
    split_ifs <;> omega

/-- Whitespace characters are not backslashes. -/
lemma space_ne_backslash {c : Char} (h : pyIsSpace c = true) : c ≠ '\\' := by
  rintro rfl
  exact absurd h (by decide)

/-- Chopping a non-backslash head preserves `ZeroPipes`. -/
lemma zero_pipes_tail {c : Char} {t : Str} (h : ZeroPipes (c :: t)) (hc : c ≠ '\\') :
    ZeroPipes t := by
  have h0 : unescaped_pipes c t = 0 := by
    have h1 := h ' '
    simp only [unescaped_pipes] at h1
    omega
  intro p
  by_cases hp : p = '\\'
  · subst hp
    exact Nat.le_zero.mp (h0 ▸ unescaped_pipes_backslash_le c t)
  · rw [unescaped_pipes_prev_eq hp hc]
    exact h0

/-- Dropping leading whitespace preserves `ZeroPipes`. -/
lemma zero_pipes_dropWhile {l : Str} (h : ZeroPipes l) :
    ZeroPipes (l.dropWhile pyIsSpace) := by
  induction l with
  | nil => exact h
  | cons c t ih =>
    by_cases hs : pyIsSpace c = true
    · rw [List.dropWhile_cons_of_pos hs]
      exact ih (zero_pipes_tail h (space_ne_backslash hs))
    · rw [List.dropWhile_cons_of_neg hs]
      exact h

/-- A prefix of a `ZeroPipes` string is `ZeroPipes`. -/
lemma zero_pipes_of_prefix {a l : Str} (h : ZeroPipes l) (hp : a <+: l) : ZeroPipes a := by
  obtain ⟨t, rfl⟩ := hp
  intro p
  have h1 := h p
  rw [unescaped_pipes_append] at h1
  omega

/-- Python strip is a prefix of the string with leading whitespace dropped. -/
lemma pyStrip_prefix_dropWhile (l : Str) : pyStrip l <+: l.dropWhile pyIsSpace := by
  unfold pyStrip
  have h1 : ((l.dropWhile pyIsSpace).reverse.dropWhile pyIsSpace) <:+
      (l.dropWhile pyIsSpace).reverse := List.dropWhile_suffix _
  have h2 := List.reverse_prefix.mpr h1
  rwa [List.reverse_reverse] at h2

/-- `ZeroPipes` survives Python strip. -/
lemma zero_pipes_pyStrip {l : Str} (h : ZeroPipes l) : ZeroPipes (pyStrip l) :=
  zero_pipes_of_prefix (zero_pipes_dropWhile h) (pyStrip_prefix_dropWhile l)

/-- `_md_escape` output has no unescaped pipes: every pipe of the input is
emitted as `\|`. -/
lemma zero_pipes_md_escape (l : Str) : ZeroPipes (md_escape l) :=
  zero_pipes_pyStrip (fun p => escape_core_unescaped p l)

/-- Characters of the stripped string come from the string. -/
lemma mem_pyStrip_sub {l : Str} {x : Char} (hx : x ∈ pyStrip l) : x ∈ l := by
  unfold pyStrip at hx
  rw [List.mem_reverse] at hx
  have h1 := (List.dropWhile_sublist (l := (l.dropWhile pyIsSpace).reverse) pyIsSpace).subset hx
  rw [List.mem_reverse] at h1
  exact (List.dropWhile_sublist pyIsSpace).subset h1

/-- A link rendered from a pipe-free URL has no unescaped pipes. -/
lemma zero_pipes_md_link {url : Str} (h : '|' ∉ url) : ZeroPipes (md_link url) := by
  intro p
  unfold md_link
  split_ifs with he
  · rfl
  · have hu : '|' ∉ pyStrip url := fun hx => h (mem_pyStrip_sub hx)
    have e1 : ∀ q : Char, unescaped_pipes q (str "[") = 0 := fun _ => rfl
    have e2 : ∀ q : Char, unescaped_pipes q (md_escape (pyStrip url)) = 0 :=
      fun q => zero_pipes_md_escape (pyStrip url) q
    have e3 : ∀ q : Char, unescaped_pipes q (str "](") = 0 := fun _ => rfl
    have e4 : ∀ q : Char, unescaped_pipes q (pyStrip url) = 0 :=
      fun q => no_pipe_unescaped q hu
    have e5 : ∀ q : Char, unescaped_pipes q (str ")") = 0 := fun _ => rfl
    simp [unescaped_pipes_append, e1, e2, e3, e4, e5]

/-- C4 counterexample: the claim implies every emitted row has exactly the
four structural separators, but a pipe inside the error URL reaches the raw
link target unescaped and adds a fifth column separator. -/
theorem claim_C4_counterexample :
    ¬ (row_pipes (site_report_row
        (Issue.mk (str "s") (str "http://x/a|b") (str "http://x/") (str "broken"))) = 4) := by
  decide

/-- C4 (amended): pipes in the error message are always escaped to `\|` (they
never break the table row), and the same holds for the link display text; but
the raw link targets are not escaped, so the row keeps exactly its four
structural separators only when the error URL and the found-on URL contain no
pipe character. -/
theorem claim_C4 (i : Issue) (h1 : '|' ∉ i.error_url) (h2 : '|' ∉ i.found_on) :
    row_pipes (site_report_row i) = 4 := by
  unfold row_pipes site_report_row
  have e1 : ∀ q : Char, unescaped_pipes q (md_link i.error_url) = 0 :=
    fun q => zero_pipes_md_link h1 q
  have e2 : ∀ q : Char, unescaped_pipes q (md_link i.found_on) = 0 :=
    fun q => zero_pipes_md_link h2 q
  have e3 : ∀ q : Char, unescaped_pipes q (md_escape i.error) = 0 :=
    fun q => zero_pipes_md_escape i.error q
  have t1 : unescaped_pipes ' ' (str "| ") = 1 := rfl
  have t2 : ∀ q : Char, unescaped_pipes q (str " | ") = 1 := fun _ => rfl
  have t3 : ∀ q : Char, unescaped_pipes q (str " |") = 1 := fun _ => rfl
  simp [unescaped_pipes_append, e1, e2, e3, t1, t2, t3]

/-- C4 witness: with pipe-free URLs, a pipe in the error message is escaped
and the row keeps its four separators. -/
theorem claim_C4_witness :
    ('|' ∉ str "http://a") ∧ ('|' ∉ str "http://b") ∧
    row_pipes (site_report_row
      (Issue.mk (str "s") (str "http://a") (str "http://b") (str "bad | msg"))) = 4 :=
  ⟨by decide, by decide,
   claim_C4 (Issue.mk (str "s") (str "http://a") (str "http://b") (str "bad | msg"))
     (by decide) (by decide)⟩

end BCSD
